import Mathlib

/-!
Verification of the AccuPlanner plan-generation pipeline
(`supabase/functions/generate-study-plan-v2/index.ts`, here the file
`src/unnamed/part_001`), shallowly embedded in Lean.

Modelling conventions:
* JavaScript strings are modelled as `String` / `List Char` (UTF-16
  subtleties of `.length`/`.slice` are modelled at the character level).
* JavaScript numbers that the code only compares with `typeof x === 'number'`
  are modelled as `Int`.
* Network effects (`fetch`) are modelled by an explicit oracle record
  (`NetOracle`): each kind of request is a function from the request URL to
  the observable outcome the code branches on (`none` = the promise rejected).
* `Math.random()`-derived jitter is an explicit function argument.
-/

namespace AccuPlanner

/-! ### Generic character/list utilities mirroring the JS string operations -/

/-- JavaScript `\s` / `String.prototype.trim` whitespace class. -/
def isJsWS (c : Char) : Bool :=
  c = ' ' || c = '\t' || c = '\n' || c = '\r' || c = '\x0b' || c = '\x0c' ||
  c.toNat = 0xa0 || c.toNat = 0x1680 ||
  (0x2000 ≤ c.toNat && c.toNat ≤ 0x200a) ||
  c.toNat = 0x2028 || c.toNat = 0x2029 || c.toNat = 0x202f ||
  c.toNat = 0x205f || c.toNat = 0x3000 || c.toNat = 0xfeff

/-- `String.prototype.trim`. -/
def trimL (l : List Char) : List Char :=
  ((l.dropWhile isJsWS).reverse.dropWhile isJsWS).reverse

/-- Lower-casing used to model case-insensitive (`/i`) regex tests and
`String.prototype.toLowerCase` on the ASCII strings that occur here. -/
def toLowerL (l : List Char) : List Char := l.map Char.toLower

/-- Split a list at the first occurrence of the substring `pat`:
returns the part before the occurrence and the part after it. -/
def splitFirstSub (pat : List Char) : List Char → Option (List Char × List Char)
  | [] => none
  | c :: rest =>
    if pat.isPrefixOf (c :: rest) then some ([], (c :: rest).drop pat.length)
    else
      match splitFirstSub pat rest with
      | some (a, b) => some (c :: a, b)
      | none => none

/-- JavaScript `String.prototype.includes` on character lists. -/
def containsSubstr (pat l : List Char) : Bool := (splitFirstSub pat l).isSome

/-- Drop everything strictly before the first occurrence of character `c`
(`none` when `c` does not occur). -/
def dropFromFirst (c : Char) : List Char → Option (List Char)
  | [] => none
  | x :: r => if x = c then some (x :: r) else dropFromFirst c r

/-! ### `encodeURIComponent` -/

def hexDigit (n : Nat) : Char :=
  if n < 10 then Char.ofNat ('0'.toNat + n) else Char.ofNat ('A'.toNat + n - 10)

/-- UTF-8 encoding of one character, as byte values. -/
def utf8Bytes (c : Char) : List Nat :=
  let n := c.toNat
  if n < 0x80 then [n]
  else if n < 0x800 then [0xc0 + n / 0x40, 0x80 + n % 0x40]
  else if n < 0x10000 then
    [0xe0 + n / 0x1000, 0x80 + (n / 0x40) % 0x40, 0x80 + n % 0x40]
  else
    [0xf0 + n / 0x40000, 0x80 + (n / 0x1000) % 0x40,
     0x80 + (n / 0x40) % 0x40, 0x80 + n % 0x40]

/-- Characters `encodeURIComponent` leaves unescaped. -/
def uriUnreserved (c : Char) : Bool :=
  c.isAlpha || c.isDigit ||
  ['-', '_', '.', '!', '~', '*', '\'', '(', ')'].contains c

def encodeURIComponentL : List Char → List Char
  | [] => []
  | c :: r =>
    (if uriUnreserved c then [c]
     else (utf8Bytes c).flatMap fun b => ['%', hexDigit (b / 16), hexDigit (b % 16)])
    ++ encodeURIComponentL r

def encodeURIComponent (s : String) : String :=
  String.mk (encodeURIComponentL s.toList)

/-! ### Plan data model (types `Resource`, `Step`, `Plan` of the source) -/

structure Resource where
  type : String
  title : String
  url : Option String
  source : Option String
  isPaid : Option Bool
deriving DecidableEq, Repr

structure Step where
  id : String
  title : String
  description : String
  durationMinutes : Int
  resources : List Resource
deriving DecidableEq, Repr

structure Plan where
  title : String
  category : Option String
  difficulty : Option Int
  summary : String
  steps : List Step
deriving DecidableEq, Repr

/-! ### `buildFallbackPlan` -/

/-- The three resources each fallback step carries
(source lines 42–46 of `buildFallbackPlan`). -/
def fallbackResources (title : String) : List Resource :=
  [ { type := "article", title := title ++ " — Overview",
      url := some ("https://www.google.com/search?q=" ++ encodeURIComponent title),
      source := none, isPaid := none },
    { type := "article", title := title ++ " — Beginner friendly",
      url := some ("https://duckduckgo.com/?q=" ++
        encodeURIComponent (title ++ " beginner")),
      source := none, isPaid := none },
    { type := "exercise", title := title ++ " — Practice tasks",
      url := some ("https://www.google.com/search?q=" ++
        encodeURIComponent (title ++ " exercises")),
      source := none, isPaid := none } ]

/-- `makeStep` local helper of `buildFallbackPlan`. -/
def makeStep (goalDescription : Option String) (i : Nat) (title : String)
    (minutes : Int) : Step :=
  { id := "fallback-" ++ toString i,
    title := "Step " ++ toString i ++ ": " ++ title,
    description :=
      "Work through this step using curated search results and reputable free resources. Focus on understanding and note-taking. " ++
      (match goalDescription with
       | some d => if d = "" then "" else "Context: " ++ d
       | none => ""),
    durationMinutes := minutes,
    resources := fallbackResources title }

/-- Strip the regex `/^(Learn|Master|Study)\s+/i` (replace-with-empty):
a case-insensitive leading keyword followed by at least one whitespace
character; the greedy `\s+` consumes the whole whitespace run. -/
def stripWordWS (w : List Char) (l : List Char) : Option (List Char) :=
  if toLowerL (l.take w.length) = w then
    match l.drop w.length with
    | c :: r => if isJsWS c then some ((c :: r).dropWhile isJsWS) else none
    | [] => none
  else none

def stripGoalPrefix (l : List Char) : List Char :=
  match stripWordWS "learn".toList l with
  | some r => r
  | none =>
    match stripWordWS "master".toList l with
    | some r => r
    | none =>
      match stripWordWS "study".toList l with
      | some r => r
      | none => l

/-- `buildFallbackPlan` (source lines 34–65): the locally synthesized
fallback plan, a pure function of the goal title and description. -/
def buildFallbackPlan (goalTitle : String) (goalDescription : Option String) : Plan :=
  let tl := goalTitle.toList
  let safeTitle : List Char :=
    if tl.length > 60 then tl.take 57 ++ "...".toList else tl
  let base : String := String.mk (trimL (stripGoalPrefix safeTitle))
  { title := base ++ " Learning Path (Fallback)",
    category := some "Self-paced",
    difficulty := some 1,
    summary := "Fallback learning path generated locally to ensure a smooth demo when the AI service is busy. You can still follow these steps and links while the model recovers.",
    steps :=
      [ makeStep goalDescription 1 (base ++ " fundamentals") 45,
        makeStep goalDescription 2 ("Core concepts of " ++ base) 60,
        makeStep goalDescription 3 (base ++ " applied examples") 60,
        makeStep goalDescription 4 ("Projects with " ++ base) 75,
        makeStep goalDescription 5 "Review and next steps" 30 ] }

/-! ### JavaScript values

The JSON object extracted from the model response is an untyped JS value
(`parsed: Partial<Plan>` in the source is a cast, not a conversion), so the
validation and filtering code is modelled over a JS value type. -/

inductive JsValue where
  | vStr : String → JsValue
  | vNum : Int → JsValue
  | vBool : Bool → JsValue
  | vNull : JsValue
  | vUndef : JsValue
  | vArr : List JsValue → JsValue
  | vObj : List (String × JsValue) → JsValue

/-- Property access `v?.k` (missing property or non-object gives `undefined`). -/
def getField : JsValue → String → JsValue
  | JsValue.vObj fs, k =>
    match fs.lookup k with
    | some v => v
    | none => JsValue.vUndef
  | _, _ => JsValue.vUndef

/-- JavaScript truthiness. -/
def truthy : JsValue → Bool
  | JsValue.vStr s => s ≠ ""
  | JsValue.vNum n => n ≠ 0
  | JsValue.vBool b => b
  | JsValue.vNull => false
  | JsValue.vUndef => false
  | JsValue.vArr _ => true
  | JsValue.vObj _ => true

def isJsArray : JsValue → Bool
  | JsValue.vArr _ => true
  | _ => false

def arrElems : JsValue → List JsValue
  | JsValue.vArr xs => xs
  | _ => []

-- JavaScript string coercion `String(v)` (arrays join their elements with
-- commas, `null`/`undefined` elements joining as empty).
mutual

def jsToStringL : JsValue → List Char
  | JsValue.vStr s => s.toList
  | JsValue.vNum n => (toString n).toList
  | JsValue.vBool b => if b then "true".toList else "false".toList
  | JsValue.vNull => "null".toList
  | JsValue.vUndef => "undefined".toList
  | JsValue.vArr xs => jsJoinL xs
  | JsValue.vObj _ => "[object Object]".toList

def jsElemL : JsValue → List Char
  | JsValue.vNull => []
  | JsValue.vUndef => []
  | v => jsToStringL v

def jsJoinL : List JsValue → List Char
  | [] => []
  | [v] => jsElemL v
  | v :: w :: r => jsElemL v ++ ',' :: jsJoinL (w :: r)

end

def jsToString (v : JsValue) : String := String.mk (jsToStringL v)

/-! ### Plan validation (source lines 261–271) -/

/-- The decoded form of a step that passed the `stepsOk` per-step check:
`typeof id/title/description === 'string'`, `typeof durationMinutes ===
'number'`, `Array.isArray(resources)`.  The resource elements themselves are
not validated and stay raw JS values. -/
structure StepV where
  id : String
  title : String
  description : String
  durationMinutes : Int
  resources : List JsValue

/-- One step of `stepsOk`: succeeds exactly when the source's per-step
type check passes. -/
def decodeStep (v : JsValue) : Option StepV :=
  match getField v "id", getField v "title", getField v "description",
        getField v "durationMinutes", getField v "resources" with
  | JsValue.vStr i, JsValue.vStr t, JsValue.vStr d, JsValue.vNum n,
    JsValue.vArr rs => some ⟨i, t, d, n, rs⟩
  | _, _, _, _, _ => none

/-- `parsed.steps.every(...)`, keeping the decoded steps. -/
def decodeSteps : List JsValue → Option (List StepV)
  | [] => some []
  | v :: r =>
    match decodeStep v, decodeSteps r with
    | some s, some ss => some (s :: ss)
    | _, _ => none

/-- The top-level field check
`!parsed?.title || !parsed?.summary || !Array.isArray(parsed?.steps)`
(negated: `true` when the check passes). -/
def planFieldsOk (parsed : JsValue) : Bool :=
  truthy (getField parsed "title") && truthy (getField parsed "summary") &&
  isJsArray (getField parsed "steps")

/-! ### Link validation (source lines 274–331) -/

/-- Outcomes of the network calls the link validator can make, one function
per request shape; `none` models a rejected fetch promise (including the
abort-by-timeout case), which the code turns into `false`/fall-through. -/
structure NetOracle where
  oembedFetch : String → Option Bool
  headStatus : String → Option Nat
  getStatus : String → Option Nat

def oembedUrlFor (u : String) : String :=
  "https://www.youtube.com/oembed?url=" ++ encodeURIComponent u ++ "&format=json"

/-- `resp.ok`: status in the 2xx range. -/
def respOk (s : Nat) : Bool := 200 ≤ s && s < 300

/-- The case-insensitive host test
`/^(https?:\/\/)?(www\.)?(youtube\.com|youtu\.be)\//i`. -/
def isYouTubeUrlL (l : List Char) : Bool :=
  let l0 := toLowerL l
  let l1 :=
    if ("https://".toList).isPrefixOf l0 then l0.drop 8
    else if ("http://".toList).isPrefixOf l0 then l0.drop 7
    else l0
  let l2 := if ("www.".toList).isPrefixOf l1 then l1.drop 4 else l1
  ("youtube.com/".toList).isPrefixOf l2 || ("youtu.be/".toList).isPrefixOf l2

/-- Line terminators that `.` does not match in a JS regex. -/
def isLineTerm (c : Char) : Bool :=
  c = '\n' || c = '\r' || c.toNat = 0x2028 || c.toNat = 0x2029

def headNonTerm : List Char → Bool
  | c :: _ => !isLineTerm c
  | [] => false

/-- Matcher for the `.+\..+` part of `/^https?:\/\/.+\..+/`, entered after
one leading non-terminator character has been consumed: looks for a literal
`'.'` followed by a non-terminator, crossing only non-terminators. -/
def dotDotTail : List Char → Bool
  | [] => false
  | c :: rest =>
    if c = '.' && headNonTerm rest then true
    else if isLineTerm c then false
    else dotDotTail rest

def dotDotMatch : List Char → Bool
  | [] => false
  | c :: rest => if isLineTerm c then false else dotDotTail rest

/-- The syntactic URL test `/^https?:\/\/.+\..+/.test(url)` used for
exercise/unknown resource kinds. -/
def looksLikeHttpUrl (u : String) : Bool :=
  let l := u.toList
  if ("https://".toList).isPrefixOf l then dotDotMatch (l.drop 8)
  else if ("http://".toList).isPrefixOf l then dotDotMatch (l.drop 7)
  else false

/-- `validateResourceUrl(url, type)` of the v2 handler (source lines
274–331).  `url`/`type` are raw JS values as found on the resource. -/
def validateResourceUrl (o : NetOracle) (url ty : JsValue) : Bool :=
  if truthy url = false then false
  else
    let u := jsToString url
    let isVideoType : Bool :=
      match ty with
      | JsValue.vStr s => s = "video"
      | _ => false
    if isVideoType || isYouTubeUrlL u.toList then
      (o.oembedFetch (oembedUrlFor u)).getD false
    else
      let probeKind : Bool :=
        match ty with
        | JsValue.vStr s => s = "article" || s = "course" || s = "book"
        | _ => false
      if probeKind then
        match o.headStatus u with
        | some s => respOk s || (300 ≤ s && s < 400)
        | none =>
          match o.getStatus u with
          | some s => respOk s || s == 206 || (300 ≤ s && s < 400)
          | none => false
      else looksLikeHttpUrl u

/-- `isYouTubeVideoPublic` of the legacy handler
(`src/supabase/functions/generate-study-plan/index.ts`, lines 443–458). -/
def isYouTubeVideoPublic (o : NetOracle) (url : String) : Bool :=
  if url = "" then false
  else if isYouTubeUrlL url.toList = false then false
  else (o.oembedFetch (oembedUrlFor url)).getD false

/-! ### Resource filtering (source lines 333–355) -/

/-- Whether the per-resource map/`filter(Boolean)` keeps resource `r`:
a resource with a falsy `url` is passed through as-is (so a falsy array
element is then dropped by `filter(Boolean)`); otherwise it is kept exactly
when `validateResourceUrl` accepts it. -/
def keepResource (o : NetOracle) (r : JsValue) : Bool :=
  if truthy (getField r "url") then
    validateResourceUrl o (getField r "url") (getField r "type")
  else truthy r

/-- The synthesized search-link resource pushed when a step has been left
with zero resources. -/
def googleSearchResource (title : String) : JsValue :=
  JsValue.vObj
    [("type", JsValue.vStr "article"),
     ("title", JsValue.vStr (title ++ " - Curated Resources")),
     ("url", JsValue.vStr
        ("https://www.google.com/search?q=" ++ encodeURIComponent title)),
     ("source", JsValue.vStr "Google Search"),
     ("isPaid", JsValue.vBool false)]

/-- The per-step body of the filtering loop. -/
def filterStep (o : NetOracle) (s : StepV) : StepV :=
  let kept := s.resources.filter (keepResource o)
  { s with resources := if kept.isEmpty then [googleSearchResource s.title] else kept }

/-! ### The post-extraction stage of the handler -/

inductive RespBody where
  | planJson : Plan → RespBody
  | genPlan : JsValue → List StepV → RespBody
  | errMsg : String → RespBody

structure HttpResponse where
  status : Nat
  body : RespBody

/-- The handler from the point where `extractJson` has produced `parsed`
(source lines 261–357): top-level field check, `stepsOk`, resource
filtering, then the 200 response with the filtered plan. -/
def planStage (o : NetOracle) (parsed : JsValue) : HttpResponse :=
  if planFieldsOk parsed = false then
    ⟨500, RespBody.errMsg "Generated plan is missing required fields"⟩
  else
    match decodeSteps (arrElems (getField parsed "steps")) with
    | none => ⟨500, RespBody.errMsg "Generated plan contains invalid steps"⟩
    | some ss => ⟨200, RespBody.genPlan parsed (ss.map (filterStep o))⟩

/-! ### `extractJson` (source lines 234–249)

Tier 1 is the regex `/(?:json)?\s*([\s\S]*?)\s*/` between code fences: its
leftmost match starts at the first fence; it succeeds exactly when another
fence follows, and (combining the greedy `\s*`s, the lazy group and the
`.trim()` the source applies to the captured group) the string handed to
`JSON.parse` is the trimmed text between the first fence (after an optional
immediate `json` tag) and the next fence.  Tier 2 is `/\{[\s\S]*\}/`: the
span from the first `{` to the last `}` when the latter comes after the
former.  `JSON.parse` is kept abstract as the `parse` argument; a thrown
parse error is an `Except.error`. -/

def fenceChars : List Char := "```".toList

/-- Tier 1: select and trim the first fenced code block, when one exists. -/
def codeBlockGroup (text : List Char) : Option (List Char) :=
  match splitFirstSub fenceChars text with
  | none => none
  | some (_, rest) =>
    let rest1 := if ("json".toList).isPrefixOf rest then rest.drop 4 else rest
    match splitFirstSub fenceChars rest1 with
    | none => none
    | some (grp, _) => some (trimL grp)

/-- Tier 2: the span from the first `{` to the last `}`. -/
def braceSpan (text : List Char) : Option (List Char) :=
  match dropFromFirst '{' text with
  | none => none
  | some s =>
    match dropFromFirst '}' s.reverse with
    | none => none
    | some t => some t.reverse

def extractJson {α : Type} (parse : List Char → Except String α)
    (text : List Char) : Except String α :=
  match codeBlockGroup text with
  | some g => parse g
  | none =>
    match braceSpan text with
    | some s => parse s
    | none => Except.error "No JSON found in response"

/-- `wrap_in_code_fence` of the spec's round-trip property: wrap a text in a
markdown code fence labeled `json`. -/
def wrapFence (t : List Char) : List Char :=
  "```json\n".toList ++ t ++ "\n```".toList

/-! ### The generation retry loop (source lines 169–222) -/

/-- The part of one upstream generation response the retry loop observes:
`ok`, `status`, and the error body.  `bodyJson = none` models a body that is
not valid JSON (`aiResp.json()` rejects, landing in the `catch`);
`bodyJson = some m` models a parsed body where `m` is the first truthy of
`e?.error?.message`, `e?.message` (`none` when both are falsy, so the code
falls back to the default message). -/
structure GenAttempt where
  ok : Bool
  status : Nat
  bodyJson : Option (Option String)

/-- `lastError` as computed from a parsed error body. -/
def lastErrorOf (status : Nat) (m : Option String) : String :=
  match m with
  | some s => s
  | none => "Gemini API error (" ++ toString status ++ ")"

/-- `isRetryable`: rate limit (429), server errors (500, 503), or an
"overloaded" message. -/
def isRetryableResp (status : Nat) (msg : String) : Bool :=
  status == 429 || status == 503 || status == 500 ||
  containsSubstr "overloaded".toList (toLowerL msg.toList)

inductive LoopExit where
  | success : Nat → LoopExit
  | fallbackAt : Nat → LoopExit
  | exhausted : LoopExit
deriving DecidableEq, Repr

/-- Observable trace of one run of the retry loop: the backoff delays slept
(in ms), the number of generation requests issued, and how the loop ended. -/
structure RetryTrace where
  delays : List Nat
  calls : Nat
  exit : LoopExit
deriving DecidableEq, Repr

/-- `maxRetries` of the v2 handler. -/
def maxRetries : Nat := 5

/-- The body of `for (let attempt = 0; attempt < maxRetries; attempt++)`,
iterating over the list of remaining attempt indices.  `resps i` is the
response to the `i`-th generation request; `jitter i` is
`Math.floor(Math.random() * 300)` for that iteration.
`LoopExit.fallbackAt` is the in-loop fallback return taken when the parsed
error is non-retryable or the attempt is the last one
(`attempt === maxRetries - 1`); `LoopExit.exhausted` means the loop ran
out, reaching the final `if (!aiResp || !aiResp.ok)` guard. -/
def retryGo (resps : Nat → GenAttempt) (jitter : Nat → Nat) (mr : Nat) :
    List Nat → RetryTrace
  | [] => ⟨[], 0, LoopExit.exhausted⟩
  | attempt :: rest =>
    let ds : List Nat :=
      if 0 < attempt then [2 ^ attempt * 1000 + jitter attempt] else []
    let r := resps attempt
    if r.ok then ⟨ds, 1, LoopExit.success attempt⟩
    else
      match r.bodyJson with
      | some m =>
        if !isRetryableResp r.status (lastErrorOf r.status m)
            || attempt == mr - 1 then
          ⟨ds, 1, LoopExit.fallbackAt attempt⟩
        else
          let t := retryGo resps jitter mr rest
          ⟨ds ++ t.delays, 1 + t.calls, t.exit⟩
      | none =>
        let t := retryGo resps jitter mr rest
        ⟨ds ++ t.delays, 1 + t.calls, t.exit⟩

def retryLoop (resps : Nat → GenAttempt) (jitter : Nat → Nat) : RetryTrace :=
  retryGo resps jitter maxRetries (List.range maxRetries)

/-- The response the handler sends when the retry loop did not break out
with a success: both the in-loop fallback return (lines 209–211) and the
post-loop guard (lines 218–222) answer HTTP 200 with the locally built
fallback plan.  `none` means the loop succeeded and the handler proceeds to
extraction. -/
def genPhaseResponse (goalTitle : String) (goalDescription : Option String)
    (t : RetryTrace) : Option HttpResponse :=
  match t.exit with
  | LoopExit.success _ => none
  | LoopExit.fallbackAt _ =>
    some ⟨200, RespBody.planJson (buildFallbackPlan goalTitle goalDescription)⟩
  | LoopExit.exhausted =>
    some ⟨200, RespBody.planJson (buildFallbackPlan goalTitle goalDescription)⟩

/-! ### Model selection (source lines 144–167) -/

structure ModelInfo where
  name : String
  supportedGenerationMethods : Option (List String)
deriving DecidableEq, Repr

/-- `m.supportedGenerationMethods?.includes('generateContent')`. -/
def supportsGenerate (m : ModelInfo) : Bool :=
  match m.supportedGenerationMethods with
  | some ms => ms.contains "generateContent"
  | none => false

/-- `preferredOrder` of the source, lightest models first. -/
def preferredOrder : List String :=
  ["gemini-1.5-flash-8b", "gemini-1.5-flash", "gemini-1.5-pro",
   "gemini-pro", "gemini-1.0-pro"]

/-- `preferredOrder.some(p => m.name.includes(p))`. -/
def matchesPreferred (m : ModelInfo) : Bool :=
  preferredOrder.any fun p => containsSubstr p.toList m.name.toList

/-- `byPreference`: first model in catalog order that is capable and whose
name contains any preferred substring. -/
def byPreference (models : List ModelInfo) : Option ModelInfo :=
  models.find? fun m => supportsGenerate m && matchesPreferred m

/-- `generativeModel = byPreference || availableModels.find(capable)`. -/
def generativeModel (models : List ModelInfo) : Option ModelInfo :=
  match byPreference models with
  | some m => some m
  | none => models.find? supportsGenerate

/-- The 502 configuration-error response sent when no model was selected;
`none` when selection succeeded. -/
def modelSelectionResponse (models : List ModelInfo) : Option HttpResponse :=
  match generativeModel models with
  | some _ => none
  | none =>
    some ⟨502, RespBody.errMsg
      "No generative models available. Please check your API access."⟩

/-- Modelled from the spec: the selection rule as the claim states it —
rank by the ordered preference list first (preference order taking priority
over the catalog's listing order), then fall back to the first capable
model in listing order.  Used only to contrast with `generativeModel`. -/
def selectModelSpec (models : List ModelInfo) : Option ModelInfo :=
  let capable := models.filter supportsGenerate
  match preferredOrder.findSome?
      (fun p => capable.find? fun m => containsSubstr p.toList m.name.toList) with
  | some m => some m
  | none => capable.head?

/-! ## Helper lemmas -/

theorem fallbackResources_shape (title : String) :
    (fallbackResources title).length = 3 ∧
    ∀ r ∈ fallbackResources title,
      (r.type = "article" ∨ r.type = "exercise") ∧
      ((∃ q, r.url = some ("https://www.google.com/search?q=" ++ q)) ∨
       (∃ q, r.url = some ("https://duckduckgo.com/?q=" ++ q))) := by
  refine ⟨rfl, ?_⟩
  intro r hr
  simp only [fallbackResources, List.mem_cons, List.not_mem_nil, or_false] at hr
  rcases hr with rfl | rfl | rfl
  · exact ⟨Or.inl rfl, Or.inl ⟨_, rfl⟩⟩
  · exact ⟨Or.inl rfl, Or.inr ⟨_, rfl⟩⟩
  · exact ⟨Or.inr rfl, Or.inl ⟨_, rfl⟩⟩

theorem steps_of_buildFallbackPlan (t : String) (d : Option String) :
    ∀ s ∈ (buildFallbackPlan t d).steps, ∃ ttl, s.resources = fallbackResources ttl := by
  intro s hs
  simp only [buildFallbackPlan, List.mem_cons, List.not_mem_nil, or_false] at hs
  rcases hs with rfl | rfl | rfl | rfl | rfl <;> exact ⟨_, rfl⟩

/-! ## Claim theorems -/

/-- Claim C4: the fallback plan is a pure function of the goal title and
description (its Lean model takes exactly those two arguments and makes no
oracle/network calls); it has exactly 5 steps, every step carries 2–3
resources (in fact exactly 3), every resource is of article or exercise
kind, and every resource URL is a generic search-engine query
(a Google-search or DuckDuckGo query URL). -/
theorem c4_fallback_plan_structure (t : String) (d : Option String) :
    (buildFallbackPlan t d).steps.length = 5 ∧
    ∀ s ∈ (buildFallbackPlan t d).steps,
      (2 ≤ s.resources.length ∧ s.resources.length ≤ 3) ∧
      ∀ r ∈ s.resources,
        (r.type = "article" ∨ r.type = "exercise") ∧
        ((∃ q, r.url = some ("https://www.google.com/search?q=" ++ q)) ∨
         (∃ q, r.url = some ("https://duckduckgo.com/?q=" ++ q))) := by
  refine ⟨rfl, ?_⟩
  intro s hs
  obtain ⟨ttl, hres⟩ := steps_of_buildFallbackPlan t d s hs
  obtain ⟨hlen, hmem⟩ := fallbackResources_shape ttl
  rw [hres, hlen]
  exact ⟨⟨by norm_num, by norm_num⟩, hmem⟩

/-- Witness for C4 at a concrete goal. -/
theorem c4_fallback_plan_structure_witness :
    (buildFallbackPlan "Learn Python" (some "from zero")).steps.length = 5 ∧
    ∀ s ∈ (buildFallbackPlan "Learn Python" (some "from zero")).steps,
      (2 ≤ s.resources.length ∧ s.resources.length ≤ 3) ∧
      ∀ r ∈ s.resources,
        (r.type = "article" ∨ r.type = "exercise") ∧
        ((∃ q, r.url = some ("https://www.google.com/search?q=" ++ q)) ∨
         (∃ q, r.url = some ("https://duckduckgo.com/?q=" ++ q))) :=
  c4_fallback_plan_structure "Learn Python" (some "from zero")

theorem retryGo_exit_no_success (resps : Nat → GenAttempt) (jitter : Nat → Nat)
    (mr : Nat) :
    ∀ l, (∀ i ∈ l, (resps i).ok = false) →
      (retryGo resps jitter mr l).exit = LoopExit.exhausted ∨
      ∃ k ∈ l, (retryGo resps jitter mr l).exit = LoopExit.fallbackAt k := by
  intro l
  induction l with
  | nil => intro _; left; rfl
  | cons a rest ih =>
    intro h
    have ha := h a (List.mem_cons_self a rest)
    have hrest := fun i hi => h i (List.mem_cons_of_mem a hi)
    cases hb : (resps a).bodyJson with
    | none =>
      simp only [retryGo, ha, Bool.false_eq_true, if_false, hb]
      rcases ih hrest with h1 | ⟨k, hk, h2⟩
      · left; exact h1
      · right; exact ⟨k, List.mem_cons_of_mem a hk, h2⟩
    | some m =>
      simp only [retryGo, ha, Bool.false_eq_true, if_false, hb]
      by_cases hc : (!isRetryableResp (resps a).status
          (lastErrorOf (resps a).status m) || (a == mr - 1)) = true
      · rw [if_pos hc]
        right; exact ⟨a, List.mem_cons_self a rest, rfl⟩
      · rw [if_neg hc]
        rcases ih hrest with h1 | ⟨k, hk, h2⟩
        · left; exact h1
        · right; exact ⟨k, List.mem_cons_of_mem a hk, h2⟩

theorem retryGo_badBody (resps : Nat → GenAttempt) (jitter : Nat → Nat)
    (mr : Nat) :
    ∀ l, (∀ i ∈ l, (resps i).ok = false ∧ (resps i).bodyJson = none) →
      (retryGo resps jitter mr l).calls = l.length ∧
      (retryGo resps jitter mr l).exit = LoopExit.exhausted := by
  intro l
  induction l with
  | nil => intro _; exact ⟨rfl, rfl⟩
  | cons a rest ih =>
    intro h
    obtain ⟨ha, hb⟩ := h a (List.mem_cons_self a rest)
    have hrest := fun i hi => h i (List.mem_cons_of_mem a hi)
    obtain ⟨ihc, ihe⟩ := ih hrest
    simp only [retryGo, ha, Bool.false_eq_true, if_false, hb]
    exact ⟨by simp [ihc, Nat.add_comm], ihe⟩

/-- Claim C2: if every one of the five attempts fails with a retryable
error whose body parses as JSON, the loop issues exactly `maxRetries = 5`
generation requests, sleeps the exponential-backoff-plus-jitter delay
`2^attempt * 1000 + jitter` before each of the four retries, ends in the
in-loop fallback branch at attempt 4, and the handler answers HTTP 200
with the locally built fallback plan (no further retries). -/
theorem c2_retry_ceiling (resps : Nat → GenAttempt) (jitter : Nat → Nat)
    (h : ∀ i, i < 5 → (resps i).ok = false ∧ ∃ m, (resps i).bodyJson = some m ∧
      isRetryableResp (resps i).status (lastErrorOf (resps i).status m) = true) :
    (retryLoop resps jitter).calls = 5 ∧
    (retryLoop resps jitter).exit = LoopExit.fallbackAt 4 ∧
    (retryLoop resps jitter).delays =
      [2 ^ 1 * 1000 + jitter 1, 2 ^ 2 * 1000 + jitter 2,
       2 ^ 3 * 1000 + jitter 3, 2 ^ 4 * 1000 + jitter 4] ∧
    ∀ gt gd, genPhaseResponse gt gd (retryLoop resps jitter) =
      some ⟨200, RespBody.planJson (buildFallbackPlan gt gd)⟩ := by
  obtain ⟨hok0, m0, hb0, hr0⟩ := h 0 (by norm_num)
  obtain ⟨hok1, m1, hb1, hr1⟩ := h 1 (by norm_num)
  obtain ⟨hok2, m2, hb2, hr2⟩ := h 2 (by norm_num)
  obtain ⟨hok3, m3, hb3, hr3⟩ := h 3 (by norm_num)
  obtain ⟨hok4, m4, hb4, hr4⟩ := h 4 (by norm_num)
  have hrange : List.range maxRetries = [0, 1, 2, 3, 4] := rfl
  have hL : retryLoop resps jitter =
      ⟨[2 ^ 1 * 1000 + jitter 1, 2 ^ 2 * 1000 + jitter 2,
        2 ^ 3 * 1000 + jitter 3, 2 ^ 4 * 1000 + jitter 4], 5,
       LoopExit.fallbackAt 4⟩ := by
    simp [retryLoop, hrange, retryGo, hok0, hb0, hr0, hok1, hb1, hr1,
      hok2, hb2, hr2, hok3, hb3, hr3, hok4, hb4, hr4, maxRetries]
  refine ⟨by rw [hL], by rw [hL], by rw [hL], ?_⟩
  intro gt gd
  rw [hL]
  rfl

/-- Witness for C2: five upstream 503 responses with JSON bodies. -/
theorem c2_retry_ceiling_witness :
    (retryLoop (fun _ => ⟨false, 503, some none⟩) (fun _ => 0)).calls = 5 ∧
    (retryLoop (fun _ => ⟨false, 503, some none⟩) (fun _ => 0)).exit =
      LoopExit.fallbackAt 4 ∧
    (retryLoop (fun _ => ⟨false, 503, some none⟩) (fun _ => 0)).delays =
      [2 ^ 1 * 1000 + 0, 2 ^ 2 * 1000 + 0, 2 ^ 3 * 1000 + 0, 2 ^ 4 * 1000 + 0] ∧
    ∀ gt gd,
      genPhaseResponse gt gd (retryLoop (fun _ => ⟨false, 503, some none⟩) (fun _ => 0)) =
        some ⟨200, RespBody.planJson (buildFallbackPlan gt gd)⟩ :=
  c2_retry_ceiling (fun _ => ⟨false, 503, some none⟩) (fun _ => 0)
    (fun _ _ => ⟨rfl, none, rfl, rfl⟩)

/-- Claim C3: a non-retryable generation failure (JSON body, status/message
outside the retryable family) makes the loop stop after that single
attempt, and — like every run in which no attempt succeeds, including
retry-ceiling exhaustion — the handler answers HTTP 200 carrying the
locally synthesized fallback plan, never an error status. -/
theorem c3_failure_family_yields_fallback_200 :
    (∀ (resps : Nat → GenAttempt) (jitter : Nat → Nat) (m : Option String)
       (gt : String) (gd : Option String),
      (resps 0).ok = false → (resps 0).bodyJson = some m →
      isRetryableResp (resps 0).status (lastErrorOf (resps 0).status m) = false →
      (retryLoop resps jitter).calls = 1 ∧
      genPhaseResponse gt gd (retryLoop resps jitter) =
        some ⟨200, RespBody.planJson (buildFallbackPlan gt gd)⟩) ∧
    (∀ (resps : Nat → GenAttempt) (jitter : Nat → Nat)
       (gt : String) (gd : Option String),
      (∀ i, i < 5 → (resps i).ok = false) →
      genPhaseResponse gt gd (retryLoop resps jitter) =
        some ⟨200, RespBody.planJson (buildFallbackPlan gt gd)⟩) := by
  constructor
  · intro resps jitter m gt gd hok hb hr
    have hrange : List.range maxRetries = [0, 1, 2, 3, 4] := rfl
    have hL : retryLoop resps jitter = ⟨[], 1, LoopExit.fallbackAt 0⟩ := by
      simp [retryLoop, hrange, retryGo, hok, hb, hr]
    rw [hL]
    exact ⟨rfl, rfl⟩
  · intro resps jitter gt gd h
    have hall : ∀ i ∈ List.range maxRetries, (resps i).ok = false := by
      intro i hi
      exact h i (List.mem_range.mp hi)
    rcases retryGo_exit_no_success resps jitter maxRetries _ hall with h1 | ⟨k, _, h2⟩
    · simp [genPhaseResponse, retryLoop, h1]
    · simp [genPhaseResponse, retryLoop, h2]

/-- Witness for C3: a 400 bad-request body on the first attempt, and a run
of five 503s. -/
theorem c3_failure_family_yields_fallback_200_witness :
    ((retryLoop (fun _ => ⟨false, 400, some (some "bad request")⟩) (fun _ => 0)).calls = 1 ∧
     genPhaseResponse "G" none
        (retryLoop (fun _ => ⟨false, 400, some (some "bad request")⟩) (fun _ => 0)) =
       some ⟨200, RespBody.planJson (buildFallbackPlan "G" none)⟩) ∧
    genPhaseResponse "G" none
        (retryLoop (fun _ => ⟨false, 503, some none⟩) (fun _ => 0)) =
      some ⟨200, RespBody.planJson (buildFallbackPlan "G" none)⟩ :=
  ⟨c3_failure_family_yields_fallback_200.1
      (fun _ => ⟨false, 400, some (some "bad request")⟩) (fun _ => 0)
      (some "bad request") "G" none rfl rfl rfl,
   c3_failure_family_yields_fallback_200.2
      (fun _ => ⟨false, 503, some none⟩) (fun _ => 0) "G" none (fun _ _ => rfl)⟩

/-- Claim C10: when the upstream error bodies are not valid JSON
(`aiResp.json()` rejects), the retryability classification is skipped
entirely — the loop never takes the in-loop classified return (the exit is
`exhausted`, not `fallbackAt`), issues all 5 requests regardless of status
(even 400/401), and the handler still answers HTTP 200 with the fallback
plan via the post-loop guard. -/
theorem c10_nonjson_body_skips_classification (resps : Nat → GenAttempt)
    (jitter : Nat → Nat) (gt : String) (gd : Option String)
    (h : ∀ i, i < 5 → (resps i).ok = false ∧ (resps i).bodyJson = none) :
    (retryLoop resps jitter).calls = 5 ∧
    (retryLoop resps jitter).exit = LoopExit.exhausted ∧
    genPhaseResponse gt gd (retryLoop resps jitter) =
      some ⟨200, RespBody.planJson (buildFallbackPlan gt gd)⟩ := by
  have hall : ∀ i ∈ List.range maxRetries,
      (resps i).ok = false ∧ (resps i).bodyJson = none := by
    intro i hi
    exact h i (List.mem_range.mp hi)
  obtain ⟨hc, he⟩ := retryGo_badBody resps jitter maxRetries _ hall
  refine ⟨?_, ?_, ?_⟩
  · rw [retryLoop, hc]; rfl
  · exact he
  · simp [genPhaseResponse, retryLoop, he]

/-- Witness for C10: five HTTP 400 responses with non-JSON bodies. -/
theorem c10_nonjson_body_skips_classification_witness :
    (retryLoop (fun _ => ⟨false, 400, none⟩) (fun _ => 0)).calls = 5 ∧
    (retryLoop (fun _ => ⟨false, 400, none⟩) (fun _ => 0)).exit =
      LoopExit.exhausted ∧
    genPhaseResponse "G" none (retryLoop (fun _ => ⟨false, 400, none⟩) (fun _ => 0)) =
      some ⟨200, RespBody.planJson (buildFallbackPlan "G" none)⟩ :=
  c10_nonjson_body_skips_classification (fun _ => ⟨false, 400, none⟩)
    (fun _ => 0) "G" none (fun _ _ => ⟨rfl, rfl⟩)

theorem find?_append_of_none {α : Type} {p : α → Bool} {l1 l2 : List α}
    (h : l1.find? p = none) : (l1 ++ l2).find? p = l2.find? p := by
  induction l1 with
  | nil => rfl
  | cons a r ih =>
    rcases hpa : p a with _ | _
    · rw [List.find?_cons_of_neg _ (by simp [hpa])] at h
      rw [List.cons_append, List.find?_cons_of_neg _ (by simp [hpa])]
      exact ih h
    · rw [List.find?_cons_of_pos _ hpa] at h
      exact absurd h (by simp)

/-- Example catalog entries for the model-selector claims. -/
def modelPro : ModelInfo := ⟨"models/gemini-1.5-pro", some ["generateContent"]⟩

def modelFlash8b : ModelInfo :=
  ⟨"models/gemini-1.5-flash-8b", some ["generateContent"]⟩

def modelNoGen : ModelInfo := ⟨"models/embedding-001", some ["embedContent"]⟩

/-- Counterexample to claim C9: with a catalog listing a capable
`gemini-1.5-pro` before a capable `gemini-1.5-flash-8b`, the code returns
the pro model (first *catalog* entry matching *any* preferred substring),
whereas selection ranked by the ordered preference list — as the claim
states, lightest names having priority over listing order — would return
`gemini-1.5-flash-8b` (the list's first entry). -/
theorem c9_counterexample :
    generativeModel [modelPro, modelFlash8b] = some modelPro ∧
    selectModelSpec [modelPro, modelFlash8b] = some modelFlash8b ∧
    modelPro ≠ modelFlash8b := by
  refine ⟨rfl, rfl, ?_⟩
  decide

/-- Claim C9 (amended): model selection is a deterministic function of the
catalog; it returns the first model in the *catalog's listing order* that
is capable and whose name contains any preferred substring (the preference
list acts as a filter, not as a priority order); when no capable model
matches a preferred substring it returns the first capable model in
listing order; and the 502 configuration-error response is produced
exactly when zero capable models exist. -/
theorem c9_selector_catalog_order (models : List ModelInfo) :
    (∀ pre m rest, models = pre ++ m :: rest →
      (supportsGenerate m && matchesPreferred m) = true →
      (∀ m' ∈ pre, (supportsGenerate m' && matchesPreferred m') = false) →
      generativeModel models = some m) ∧
    (byPreference models = none →
      generativeModel models = models.find? supportsGenerate) ∧
    ((generativeModel models = none) ↔ ∀ m ∈ models, supportsGenerate m = false) ∧
    (generativeModel models = none →
      modelSelectionResponse models = some ⟨502, RespBody.errMsg
        "No generative models available. Please check your API access."⟩) ∧
    (∀ m, generativeModel models = some m → modelSelectionResponse models = none) := by
  refine ⟨?_, ?_, ?_, ?_, ?_⟩
  · intro pre m rest hsplit hm hpre
    have hfind : models.find?
        (fun x => supportsGenerate x && matchesPreferred x) = some m := by
      rw [hsplit, find?_append_of_none
        (List.find?_eq_none.mpr fun x hx => by simp [hpre x hx])]
      exact List.find?_cons_of_pos _ hm
    rw [generativeModel, byPreference, hfind]
  · intro h
    rw [generativeModel, h]
  · constructor
    · intro h m hm
      rw [generativeModel] at h
      rcases hbp : byPreference models with _ | m'
      · rw [hbp] at h
        have := List.find?_eq_none.mp h m hm
        simpa using this
      · rw [hbp] at h
        exact absurd h (by simp)
    · intro h
      have hbp : byPreference models = none :=
        List.find?_eq_none.mpr fun x hx => by simp [h x hx]
      rw [generativeModel, hbp]
      exact List.find?_eq_none.mpr fun x hx => by simp [h x hx]
  · intro h
    rw [modelSelectionResponse, h]
  · intro m h
    rw [modelSelectionResponse, h]

/-- Witness for C9 (amended): a catalog whose first entry is not capable
and whose second is a capable preferred model; the selector skips the
incapable entry and returns the flash model. -/
theorem c9_selector_catalog_order_witness :
    generativeModel [modelNoGen, modelFlash8b] = some modelFlash8b :=
  (c9_selector_catalog_order [modelNoGen, modelFlash8b]).1
    [modelNoGen] modelFlash8b [] rfl (by decide) (by decide)

/-- Oracle whose every fetch resolves with `resp.ok` (metadata endpoint
answers success for any URL). -/
def oracleAlwaysOk : NetOracle := ⟨fun _ => some true, fun _ => none, fun _ => none⟩

/-- Oracle whose every fetch rejects. -/
def oracleNone : NetOracle := ⟨fun _ => none, fun _ => none, fun _ => none⟩

/-- Counterexample to claim C8: a resource of video kind whose URL host is
not a YouTube host is still routed to the metadata-lookup (oembed) branch
by `type === 'video' || ...`, and validation returns the endpoint's answer
— here `true` — rather than `false` regardless of the endpoint. -/
theorem c8_counterexample :
    isYouTubeUrlL ("https://example.com/talk".toList) = false ∧
    validateResourceUrl oracleAlwaysOk (JsValue.vStr "https://example.com/talk")
      (JsValue.vStr "video") = true := by
  exact ⟨by decide, rfl⟩

/-- Claim C8 (amended): only the legacy `isYouTubeVideoPublic` check
returns `false` unconditionally for URLs whose host fails
`(www.)?(youtube.com|youtu.be)`; in the v2 `validateResourceUrl`, a
resource of video kind is always checked through the metadata-lookup
endpoint and validation returns that endpoint's answer, whatever the
host. -/
theorem c8_video_branch_behaviour :
    (∀ (o : NetOracle) (u : String), isYouTubeUrlL u.toList = false →
      isYouTubeVideoPublic o u = false) ∧
    (∀ (o : NetOracle) (url : JsValue), truthy url = true →
      validateResourceUrl o url (JsValue.vStr "video") =
        (o.oembedFetch (oembedUrlFor (jsToString url))).getD false) := by
  constructor
  · intro o u h
    have h' : isYouTubeUrlL u.data = false := h
    simp [isYouTubeVideoPublic, h, h']
  · intro o url h
    simp [validateResourceUrl, h]

/-- Witness for C8 (amended) at a concrete non-YouTube URL. -/
theorem c8_video_branch_behaviour_witness :
    isYouTubeVideoPublic oracleAlwaysOk "https://example.org/v" = false ∧
    validateResourceUrl oracleAlwaysOk (JsValue.vStr "https://example.org/v")
        (JsValue.vStr "video") =
      (oracleAlwaysOk.oembedFetch
        (oembedUrlFor (jsToString (JsValue.vStr "https://example.org/v")))).getD false :=
  ⟨c8_video_branch_behaviour.1 oracleAlwaysOk "https://example.org/v" (by decide),
   c8_video_branch_behaviour.2 oracleAlwaysOk
     (JsValue.vStr "https://example.org/v") (by decide)⟩

/-- Candidate whose `steps` is an empty array: passes validation. -/
def emptyStepsCandidate : JsValue :=
  JsValue.vObj [("title", JsValue.vStr "t"), ("summary", JsValue.vStr "s"),
    ("steps", JsValue.vArr [])]

/-- Counterexample to claim C1: the validator only checks
`Array.isArray(parsed.steps)`, so a candidate with an empty `steps` array
reaches the success path and the handler returns HTTP 200 with a plan
containing zero steps, violating the claimed ≥1-step invariant. -/
theorem c1_counterexample :
    planStage oracleNone emptyStepsCandidate =
      ⟨200, RespBody.genPlan emptyStepsCandidate []⟩ := rfl

/-- Claim C1 (amended): on the success (DONE) path every step of the
returned plan has at least one resource — when filtering leaves a step
empty, exactly one generic Google-search resource built from the step's
title is appended — but the plan itself may have zero steps, because
validation accepts an empty `steps` array (see the counterexample). -/
theorem c1_steps_keep_resource_invariant (o : NetOracle) (parsed t : JsValue)
    (steps : List StepV)
    (h : planStage o parsed = ⟨200, RespBody.genPlan t steps⟩) :
    (∀ s ∈ steps, s.resources ≠ [] ∧ 1 ≤ s.resources.length) ∧
    (∀ s : StepV, s.resources.filter (keepResource o) = [] →
      (filterStep o s).resources = [googleSearchResource s.title]) := by
  constructor
  · rcases hpf : planFieldsOk parsed with _ | _
    · rw [planStage, if_pos hpf] at h
      exact absurd h (by simp)
    · rw [planStage, if_neg (by simp [hpf])] at h
      rcases hds : decodeSteps (arrElems (getField parsed "steps")) with _ | ss
      · rw [hds] at h
        exact absurd h (by simp)
      · rw [hds] at h
        have hsteps : steps = ss.map (filterStep o) := by
          have := congrArg HttpResponse.body h
          simp only [RespBody.genPlan.injEq] at this
          exact this.2.symm
        subst hsteps
        intro s hs
        obtain ⟨s', _, rfl⟩ := List.mem_map.mp hs
        rcases hk : (s'.resources.filter (keepResource o)).isEmpty with _ | _
        · have : (filterStep o s').resources = s'.resources.filter (keepResource o) := by
            simp [filterStep, hk]
          rw [this]
          have hne : s'.resources.filter (keepResource o) ≠ [] := by
            intro hcon
            rw [hcon] at hk
            simp at hk
          exact ⟨hne, List.length_pos.mpr hne⟩
        · have : (filterStep o s').resources = [googleSearchResource s'.title] := by
            simp [filterStep, hk]
          rw [this]
          exact ⟨by simp, by simp⟩
  · intro s hs
    simp [filterStep, hs]

/-- One-step candidate used as the C1 witness input. -/
def oneStepCandidate : JsValue :=
  JsValue.vObj [("title", JsValue.vStr "t"), ("summary", JsValue.vStr "s"),
    ("steps", JsValue.vArr [JsValue.vObj
      [("id", JsValue.vStr "s1"), ("title", JsValue.vStr "T"),
       ("description", JsValue.vStr "D"),
       ("durationMinutes", JsValue.vNum 30),
       ("resources", JsValue.vArr [])]])]

/-- Witness for C1 (amended): a concrete DONE-path run where the only step
lost all resources and got exactly the synthesized search link. -/
theorem c1_steps_keep_resource_invariant_witness :
    (∀ s ∈ [(⟨"s1", "T", "D", 30, [googleSearchResource "T"]⟩ : StepV)],
      s.resources ≠ [] ∧ 1 ≤ s.resources.length) ∧
    (∀ s : StepV, s.resources.filter (keepResource oracleNone) = [] →
      (filterStep oracleNone s).resources = [googleSearchResource s.title]) :=
  c1_steps_keep_resource_invariant oracleNone oneStepCandidate oneStepCandidate
    [⟨"s1", "T", "D", 30, [googleSearchResource "T"]⟩] rfl

/-- Candidate with a step whose `durationMinutes` is negative: the per-step
check only tests `typeof durationMinutes === 'number'`. -/
def negDurationCandidate : JsValue :=
  JsValue.vObj [("title", JsValue.vStr "t"), ("summary", JsValue.vStr "s"),
    ("steps", JsValue.vArr [JsValue.vObj
      [("id", JsValue.vStr "s1"), ("title", JsValue.vStr "T"),
       ("description", JsValue.vStr "D"),
       ("durationMinutes", JsValue.vNum (-5)),
       ("resources", JsValue.vArr [])]])]

/-- Counterexample to claim C6: a candidate containing a step with
negative `durationMinutes` is accepted (HTTP 200), not rejected with a
validation error — the validator has no non-negativity check (and, per the
C1 counterexample, no non-emptiness check on `steps` either). -/
theorem c6_counterexample :
    decodeSteps (arrElems (getField negDurationCandidate "steps")) =
      some [⟨"s1", "T", "D", -5, []⟩] ∧
    (-5 : Int) < 0 ∧
    (planStage oracleNone negDurationCandidate).status = 200 := by
  exact ⟨rfl, by norm_num, rfl⟩

/-- Claim C6 (amended): validation accepts a candidate exactly when its
`title` and `summary` are truthy (not necessarily strings), its `steps`
field is an array (possibly empty), and every step has string
`id`/`title`/`description`, a numeric `durationMinutes` of any sign, and an
array `resources`; a candidate failing the top-level check gets the
missing-fields 500, and one failing the per-step check gets the
invalid-steps 500. -/
theorem c6_validation_characterization (o : NetOracle) (parsed : JsValue) :
    ((planStage o parsed).status = 200 ↔ planFieldsOk parsed = true ∧
      (decodeSteps (arrElems (getField parsed "steps"))).isSome = true) ∧
    (planFieldsOk parsed = false → planStage o parsed =
      ⟨500, RespBody.errMsg "Generated plan is missing required fields"⟩) ∧
    (planFieldsOk parsed = true →
      decodeSteps (arrElems (getField parsed "steps")) = none →
      planStage o parsed =
        ⟨500, RespBody.errMsg "Generated plan contains invalid steps"⟩) ∧
    (∀ v, (decodeStep v).isSome = true ↔
      (∃ s, getField v "id" = JsValue.vStr s) ∧
      (∃ s, getField v "title" = JsValue.vStr s) ∧
      (∃ s, getField v "description" = JsValue.vStr s) ∧
      (∃ n, getField v "durationMinutes" = JsValue.vNum n) ∧
      (∃ rs, getField v "resources" = JsValue.vArr rs)) := by
  refine ⟨?_, ?_, ?_, ?_⟩
  · rcases hpf : planFieldsOk parsed with _ | _
    · rw [planStage, if_pos hpf]
      simp [hpf]
    · rw [planStage, if_neg (by simp [hpf])]
      rcases hds : decodeSteps (arrElems (getField parsed "steps")) with _ | ss
      · simp [hds]
      · simp [hds]
  · intro hpf
    rw [planStage, if_pos hpf]
  · intro hpf hds
    rw [planStage, if_neg (by simp [hpf]), hds]
  · intro v
    constructor
    · intro h
      unfold decodeStep at h
      split at h
      · rename_i i t d n rs hi ht hd hn hr
        exact ⟨⟨i, hi⟩, ⟨t, ht⟩, ⟨d, hd⟩, ⟨n, hn⟩, ⟨rs, hr⟩⟩
      · simp at h
    · rintro ⟨⟨i, hi⟩, ⟨t, ht⟩, ⟨d, hd⟩, ⟨n, hn⟩, ⟨rs, hr⟩⟩
      simp [decodeStep, hi, ht, hd, hn, hr]

/-- Witness for C6 (amended), evaluated on the one-step candidate. -/
theorem c6_validation_characterization_witness :
    ((planStage oracleNone oneStepCandidate).status = 200 ↔
      planFieldsOk oneStepCandidate = true ∧
      (decodeSteps (arrElems (getField oneStepCandidate "steps"))).isSome = true) ∧
    (planFieldsOk oneStepCandidate = false → planStage oracleNone oneStepCandidate =
      ⟨500, RespBody.errMsg "Generated plan is missing required fields"⟩) ∧
    (planFieldsOk oneStepCandidate = true →
      decodeSteps (arrElems (getField oneStepCandidate "steps")) = none →
      planStage oracleNone oneStepCandidate =
        ⟨500, RespBody.errMsg "Generated plan contains invalid steps"⟩) ∧
    (∀ v, (decodeStep v).isSome = true ↔
      (∃ s, getField v "id" = JsValue.vStr s) ∧
      (∃ s, getField v "title" = JsValue.vStr s) ∧
      (∃ s, getField v "description" = JsValue.vStr s) ∧
      (∃ n, getField v "durationMinutes" = JsValue.vNum n) ∧
      (∃ rs, getField v "resources" = JsValue.vArr rs)) :=
  c6_validation_characterization oracleNone oneStepCandidate

/-- Candidate lacking the `steps` field altogether. -/
def missingStepsCandidate : JsValue :=
  JsValue.vObj [("title", JsValue.vStr "t"), ("summary", JsValue.vStr "s")]

/-- Counterexample to claim C7: for an extracted object missing `steps`,
the surfaced error message is the generic
"Generated plan is missing required fields", which does not name (contain)
`steps`. -/
theorem c7_counterexample :
    planStage oracleNone missingStepsCandidate =
      ⟨500, RespBody.errMsg "Generated plan is missing required fields"⟩ ∧
    containsSubstr "steps".toList
      "Generated plan is missing required fields".toList = false := by
  exact ⟨rfl, by decide⟩

/-- Claim C7 (amended): when the top-level validation fails — in
particular whenever `steps` is missing or not an array — the handler
returns a single generic 500 message identifying only the failure class,
and that message does not name the offending field `steps`. -/
theorem c7_generic_validation_message (o : NetOracle) (parsed : JsValue)
    (h : isJsArray (getField parsed "steps") = false) :
    planStage o parsed =
      ⟨500, RespBody.errMsg "Generated plan is missing required fields"⟩ ∧
    containsSubstr "steps".toList
      "Generated plan is missing required fields".toList = false := by
  have hpf : planFieldsOk parsed = false := by
    simp [planFieldsOk, h]
  exact ⟨by rw [planStage, if_pos hpf], by decide⟩

/-- Witness for C7 (amended) on a concrete candidate with no `steps`. -/
theorem c7_generic_validation_message_witness :
    planStage oracleNone missingStepsCandidate =
      ⟨500, RespBody.errMsg "Generated plan is missing required fields"⟩ ∧
    containsSubstr "steps".toList
      "Generated plan is missing required fields".toList = false :=
  c7_generic_validation_message oracleNone missingStepsCandidate rfl

/-- The backquote character, named to reason about `fenceChars`. -/
def bq : Char := Char.ofNat 96

theorem fenceChars_eq : fenceChars = [bq, bq, bq] := by decide

theorem isPrefixOf_append_self (pat w : List Char) :
    pat.isPrefixOf (pat ++ w) = true := by
  rw [List.isPrefixOf_iff_prefix]
  exact List.prefix_append pat w

theorem splitFirstSub_append_pat (pat r : List Char) (hne : pat ≠ []) :
    splitFirstSub pat (pat ++ r) = some ([], r) := by
  cases pat with
  | nil => exact absurd rfl hne
  | cons p ps =>
    show splitFirstSub (p :: ps) (p :: (ps ++ r)) = some ([], r)
    rw [splitFirstSub, if_pos (show (p :: ps).isPrefixOf (p :: (ps ++ r)) = true from
      isPrefixOf_append_self (p :: ps) r)]
    simp [List.drop_left]

theorem containsSubstr_cons (pat : List Char) (c : Char) (l : List Char) :
    containsSubstr pat (c :: l) =
      (pat.isPrefixOf (c :: l) || containsSubstr pat l) := by
  by_cases hp : pat.isPrefixOf (c :: l) = true
  · simp [containsSubstr, splitFirstSub, hp]
  · have hp' : pat.isPrefixOf (c :: l) = false := Bool.eq_false_iff.mpr hp
    simp only [containsSubstr, splitFirstSub, hp', Bool.false_eq_true, if_false,
      Bool.false_or]
    cases h2 : splitFirstSub pat l with
    | none => simp [h2]
    | some ab => cases ab; simp [h2]

theorem splitFirstSub_cons_of_neg (pat : List Char) (c : Char) (l : List Char)
    (h : pat.isPrefixOf (c :: l) = false) :
    splitFirstSub pat (c :: l) =
      match splitFirstSub pat l with
      | some (a, b) => some (c :: a, b)
      | none => none := by
  rw [splitFirstSub, if_neg (by simp [h])]

theorem not_prefix_fence_of_head_nl (x : List Char) :
    fenceChars.isPrefixOf ('\n' :: x) = false := by
  rw [fenceChars_eq]
  have h1 : (bq == '\n') = false := by decide
  simp [List.isPrefixOf, h1]

theorem not_prefix_fence_extend (c : Char) (t' z : List Char)
    (h : fenceChars.isPrefixOf (c :: t') = false) :
    fenceChars.isPrefixOf (c :: (t' ++ '\n' :: z)) = false := by
  rw [fenceChars_eq] at h ⊢
  cases t' with
  | nil =>
    have h1 : (bq == '\n') = false := by decide
    simp [List.isPrefixOf, h1]
  | cons a t'' =>
    cases t'' with
    | nil =>
      have h1 : (bq == '\n') = false := by decide
      simp [List.isPrefixOf, h1]
    | cons b t3 =>
      simp only [List.isPrefixOf, List.cons_append, Bool.and_eq_false_imp] at h ⊢
      intro hc ha
      have := h hc ha
      simpa using this

theorem splitFirstSub_fence_boundary :
    ∀ t r : List Char, containsSubstr fenceChars t = false →
      splitFirstSub fenceChars (t ++ '\n' :: (fenceChars ++ r)) =
        some (t ++ ['\n'], r) := by
  intro t
  induction t with
  | nil =>
    intro r _
    rw [List.nil_append,
      splitFirstSub_cons_of_neg _ _ _ (not_prefix_fence_of_head_nl _),
      splitFirstSub_append_pat _ r (by decide)]
    rfl
  | cons c t' ih =>
    intro r h
    rw [containsSubstr_cons] at h
    obtain ⟨hp, hc⟩ := Bool.or_eq_false_iff.mp h
    rw [List.cons_append,
      splitFirstSub_cons_of_neg _ _ _ (not_prefix_fence_extend c t' _ hp),
      ih r hc]
    rfl

theorem splitFirstSub_eq_none_of_not_contains (pat l : List Char)
    (h : containsSubstr pat l = false) : splitFirstSub pat l = none := by
  cases h2 : splitFirstSub pat l with
  | none => rfl
  | some p => rw [containsSubstr, h2] at h; simp at h

theorem dropWhile_append_char (p : Char → Bool) (a b : List Char) :
    List.dropWhile p (a ++ b) =
      if (List.dropWhile p a).isEmpty then List.dropWhile p b
      else List.dropWhile p a ++ b := by
  induction a with
  | nil => simp
  | cons c a' ih =>
    by_cases hc : p c = true
    · simp [List.dropWhile_cons, hc, ih]
    · have hc' : p c = false := by simpa using hc
      simp [List.dropWhile_cons, hc']

theorem trimL_cons_nl (x : List Char) : trimL ('\n' :: x) = trimL x := by
  have h : isJsWS '\n' = true := by decide
  simp [trimL, List.dropWhile_cons, h]

theorem trimL_append_nl (t : List Char) (h : trimL t = t) :
    trimL (t ++ ['\n']) = t := by
  rcases hA : List.dropWhile isJsWS t with _ | ⟨c, w⟩
  · have ht : trimL t = [] := by simp [trimL, hA]
    have ht0 : t = [] := by rw [← h, ht]
    subst ht0
    decide
  · have hne : (List.dropWhile isJsWS t).isEmpty = false := by simp [hA]
    have h1 : List.dropWhile isJsWS (t ++ ['\n']) =
        List.dropWhile isJsWS t ++ ['\n'] := by
      rw [dropWhile_append_char, if_neg (by simp [hne])]
    rw [trimL, h1, List.reverse_append]
    simp only [List.reverse_cons, List.reverse_nil, List.nil_append,
      List.singleton_append]
    rw [List.dropWhile_cons, if_pos (by decide)]
    have h2 : (List.dropWhile isJsWS (List.dropWhile isJsWS t).reverse).reverse =
        trimL t := rfl
    rw [h2, h]

theorem trimL_wrap (t : List Char) (h : trimL t = t) :
    trimL ('\n' :: (t ++ ['\n'])) = t := by
  rw [trimL_cons_nl, trimL_append_nl t h]

theorem codeBlockGroup_wrapFence (t : List Char)
    (h : containsSubstr fenceChars t = false) :
    codeBlockGroup (wrapFence t) = some (trimL ('\n' :: (t ++ ['\n']))) := by
  have hw : wrapFence t =
      fenceChars ++ ("json".toList ++ (('\n' :: t) ++ ('\n' :: (fenceChars ++ [])))) := by
    rw [wrapFence]
    have h1 : "```json\n".toList = fenceChars ++ ("json".toList ++ ['\n']) := by
      decide
    have h2 : "\n```".toList = '\n' :: (fenceChars ++ []) := by decide
    rw [h1, h2]
    simp [List.append_assoc]
  have hs1 : splitFirstSub fenceChars (wrapFence t) =
      some ([], "json".toList ++ (('\n' :: t) ++ ('\n' :: (fenceChars ++ [])))) := by
    rw [hw]
    exact splitFirstSub_append_pat _ _ (by decide)
  have hcontains : containsSubstr fenceChars ('\n' :: t) = false := by
    rw [containsSubstr_cons, not_prefix_fence_of_head_nl, h]
    rfl
  have hs2 : splitFirstSub fenceChars (('\n' :: t) ++ ('\n' :: (fenceChars ++ []))) =
      some (('\n' :: t) ++ ['\n'], []) :=
    splitFirstSub_fence_boundary ('\n' :: t) [] hcontains
  have hpre : ("json".toList).isPrefixOf
      ("json".toList ++ (('\n' :: t) ++ ('\n' :: (fenceChars ++ [])))) = true :=
    isPrefixOf_append_self _ _
  have hdrop : ("json".toList ++ (('\n' :: t) ++ ('\n' :: (fenceChars ++ [])))).drop 4 =
      ('\n' :: t) ++ ('\n' :: (fenceChars ++ [])) := by
    simp
  rw [codeBlockGroup, hs1]
  simp only [hpre, if_true, hdrop, hs2]
  simp

/-- Claim C5: the extractor prefers a fenced code block when one exists,
otherwise takes the span from the first `{` to the last `}`, and fails
with the extraction error when neither tier selects a span; consequently,
for any parser, `extract (wrap_in_code_fence t) = parse t` for every
trimmed text `t` containing no fence, and on bare JSON text (starting with
`{`, ending with `}`, no fence) the selected span is the whole text — so
extraction agrees with direct parsing and is idempotent. -/
theorem c5_extractor_two_tier (α : Type) :
    (∀ (parse : List Char → Except String α) (t g : List Char),
      codeBlockGroup t = some g → extractJson parse t = parse g) ∧
    (∀ (parse : List Char → Except String α) (t s : List Char),
      codeBlockGroup t = none → braceSpan t = some s →
      extractJson parse t = parse s) ∧
    (∀ (parse : List Char → Except String α) (t : List Char),
      codeBlockGroup t = none → braceSpan t = none →
      extractJson parse t = Except.error "No JSON found in response") ∧
    (∀ (parse : List Char → Except String α) (t : List Char),
      containsSubstr fenceChars t = false → trimL t = t →
      extractJson parse (wrapFence t) = parse t) ∧
    (∀ (parse : List Char → Except String α) (t b a : List Char),
      containsSubstr fenceChars t = false → t = '{' :: b → t = a ++ ['}'] →
      braceSpan t = some t ∧ extractJson parse t = parse t) := by
  have hfence : ∀ parse : List Char → Except String α, ∀ t g,
      codeBlockGroup t = some g → extractJson parse t = parse g := by
    intro parse t g h
    rw [extractJson, h]
  refine ⟨hfence, ?_, ?_, ?_, ?_⟩
  · intro parse t s h1 h2
    rw [extractJson, h1, h2]
  · intro parse t h1 h2
    rw [extractJson, h1, h2]
  · intro parse t h1 h2
    rw [hfence parse (wrapFence t) _ (codeBlockGroup_wrapFence t h1),
      trimL_wrap t h2]
  · intro parse t b a h1 hb ha
    have hcb : codeBlockGroup t = none := by
      rw [codeBlockGroup, splitFirstSub_eq_none_of_not_contains _ _ h1]
    have hd : dropFromFirst '{' t = some t := by
      rw [hb]; simp [dropFromFirst]
    have hrev : t.reverse = '}' :: a.reverse := by rw [ha]; simp
    have hdr : dropFromFirst '}' t.reverse = some t.reverse := by
      rw [hrev]; simp [dropFromFirst]
    have hbs : braceSpan t = some t := by
      rw [braceSpan, hd]
      show (match dropFromFirst '}' t.reverse with
            | none => none
            | some u => some u.reverse) = some t
      rw [hdr]
      show some t.reverse.reverse = some t
      rw [List.reverse_reverse]
    exact ⟨hbs, by rw [extractJson, hcb, hbs]⟩

/-- Witness for C5 on a concrete brace-delimited text. -/
theorem c5_extractor_two_tier_witness :
    extractJson Except.ok (wrapFence ['{', 'a', '}']) =
      Except.ok ['{', 'a', '}'] ∧
    (braceSpan ['{', 'a', '}'] = some ['{', 'a', '}'] ∧
     extractJson Except.ok ['{', 'a', '}'] = Except.ok ['{', 'a', '}']) :=
  ⟨(c5_extractor_two_tier (List Char)).2.2.2.1 Except.ok ['{', 'a', '}']
      (by decide) (by decide),
   (c5_extractor_two_tier (List Char)).2.2.2.2 Except.ok ['{', 'a', '}']
      ['a', '}'] ['{', 'a'] (by decide) rfl (by decide)⟩

end AccuPlanner
